import Mathlib

/-!
Verification of the succ crawler core (src/succ/main.py, src/succ/post.py).

The embedding translates the pure data flow of the two modules:
posts, the tag-knowledge cache (sqlite table `tags(tag primary key, type)`),
the tag resolver `TagFetcher._fetch`, the per-post label synthesis in
`SuccMain.fetch_page`, and the crawl loops `c_fetch_until` / `c_fetch_all`.
Remote I/O is modelled by passing the successful response value explicitly;
the jittered retry delays are modelled over the rationals; the
tag-fetch semaphore is modelled as a labelled transition system.
-/

namespace Succ

/-- Record of tag information as returned by the remote tag API and as built
by `_wrap` in post.py: a dict with keys `name` and `tag_type`. -/
structure TagInfo where
  name : String
  tag_type : Int
deriving DecidableEq, Repr

/-- Modelled from the spec: the module consts.py (not under src/) defines the
TagType enumeration; the spec names a GENERAL classification used as the
resolver's fallback kind. Its concrete numeric value does not matter to any
claim; 0 is the catalog's general tag type. -/
def TagType.GENERAL : Int := 0

/-- Post data as parsed from one entry of the page response
(`Post.__init__`, post.py lines 26-33). -/
structure Post where
  id : Int
  raw_tags : List String
  tags : List String
  timestamp : String
  hash : String
  url : String
  author : String
deriving DecidableEq, Repr

/-- Raw JSON fields of one post entry of `/post/index.json`. -/
structure RawPost where
  id : Int
  tags : String
  created_at : String
  md5 : String
  file_url : String
  author : String
deriving DecidableEq, Repr

/-- `Post.__init__` (post.py lines 26-33): both `raw_tags` and `tags` start as
the space-split of the raw tag string. -/
def Post.ofRaw (d : RawPost) : Post :=
  { id := d.id
    raw_tags := d.tags.splitOn " "
    tags := d.tags.splitOn " "
    timestamp := d.created_at
    hash := d.md5
    url := d.file_url
    author := d.author }

/-- `Post.tag_add` (post.py lines 40-42): append one tag to `tags`. -/
def Post.tag_add (p : Post) (tag : String) : Post :=
  { p with tags := p.tags ++ [tag] }

/-- The four unconditional tag additions of `SuccMain.fetch_page`
(main.py lines 130-135), applied to a freshly constructed post. -/
def synthTags (p : Post) : Post :=
  ((((p.tag_add "hypnosis").tag_add "booru:hypnohub").tag_add
      ("md5:" ++ p.hash)).tag_add ("id:" ++ toString p.id))

/-- The tag-knowledge cache: the rows of the sqlite table
`tags(tag text primary key, type int)`, in insertion order. -/
abbrev Cache := List (String × Int)

/-- `select type from tags where tag=?` (post.py line 76). -/
def lookupTag (cache : Cache) (tag : String) : Option Int :=
  (cache.find? (fun e => e.1 == tag)).map (fun e => e.2)

/-- `insert into tags (tag, type) values (?, ?)` (post.py lines 104 and 123):
a bare sqlite insert, which raises `IntegrityError` (modelled as
`Except.error ()`) when the primary key `tag` is already present. The
GENERAL-fallback insert at post.py lines 123-124 calls exactly this, with no
surrounding exception handler. -/
def insertTag (cache : Cache) (tag : String) (ttype : Int) : Except Unit Cache :=
  if cache.any (fun e => e.1 == tag) then Except.error ()
  else Except.ok (cache ++ [(tag, ttype)])

/-- The opportunistic-learning insert path (post.py lines 103-108): the bare
insert wrapped in `try ... except sqlite3.IntegrityError`, i.e. the spec's
`insertIfAbsent`: on a duplicate it leaves the cache unchanged and reports
`false`. -/
def insertIfAbsent (cache : Cache) (tag : String) (ttype : Int) : Cache × Bool :=
  match insertTag cache tag ttype with
  | Except.ok c => (c, true)
  | Except.error _ => (cache, false)

/-- The first loop of `TagFetcher._fetch` (post.py lines 98-108): insert every
record of the response via the guarded insert, threading the cache. -/
def learnAll (cache : Cache) (results : List TagInfo) : Cache :=
  results.foldl (fun c r => (insertIfAbsent c r.name r.tag_type).1) cache

/-- `TagFetcher._fetch` (post.py lines 64-126) on the path where the remote
call succeeds with response `results`: consult the cache; otherwise learn all
returned records, scan for an exact name match, and fall back to a bare
insert of (tag, GENERAL). `Except.error ()` is the uncaught
`sqlite3.IntegrityError` of the fallback insert. The transient-retry branch
(lines 89-95) reissues the remote call and is outside this success path. -/
def tagFetch (cache : Cache) (tag : String) (results : List TagInfo) :
    Except Unit (TagInfo × Cache) :=
  match lookupTag cache tag with
  | some t => Except.ok (⟨tag, t⟩, cache)
  | none =>
    let cache1 := learnAll cache results
    match results.find? (fun r => r.name == tag) with
    | some r => Except.ok (⟨r.name, r.tag_type⟩, cache1)
    | none =>
      match insertTag cache1 tag TagType.GENERAL with
      | Except.ok c2 => Except.ok (⟨tag, TagType.GENERAL⟩, c2)
      | Except.error e => Except.error e

/-- The tag fan-out of `SuccMain.fetch_page` (main.py lines 143-146): one
`TagFetcher` is created for each element of `copy.copy(post.raw_tags)`; the
list of tags handed to fetchers is the raw tag list itself. -/
def tagFetcherTags (p : Post) : List String := p.raw_tags

/-- The wanted partition of `c_fetch_until` (main.py line 240):
`filter(lambda post: post.id >= until_id, posts)`. -/
def wantedOf (untilId : Int) (posts : List Post) : List Post :=
  posts.filter (fun post => untilId ≤ post.id)

/-- The unwanted partition of `c_fetch_until` (main.py line 241):
`filter(lambda post: post.id < until_id, posts)`. -/
def unwantedOf (untilId : Int) (posts : List Post) : List Post :=
  posts.filter (fun post => post.id < untilId)

/-- The `while True` loop of `SuccMain.c_fetch_until` (main.py lines 238-255),
run over the pages the remote would return in order, page 0 first. Each
iteration extends the accumulator with the page's wanted posts and breaks
exactly when the page has unwanted posts. `some (acc, n)` means the loop
broke with accumulator `acc` after consuming `n` pages; `none` means the loop
ran past all the supplied pages, still requesting more (it never broke). -/
def fetchUntilLoop (untilId : Int) : List (List Post) → Option (List Post × Nat)
  | [] => none
  | page :: rest =>
    if (unwantedOf untilId page).isEmpty then
      match fetchUntilLoop untilId rest with
      | none => none
      | some (acc, n) => some (wantedOf untilId page ++ acc, n + 1)
    else
      some (wantedOf untilId page, 1)

/-- Outcome of `c_fetch_until` after its loop breaks: either one batch handed
to `process_hta`, or the uncaught `IndexError` of `final_posts[0].id`
(main.py line 258) when the accumulator is empty. -/
inductive UntilResult
  | batch (posts : List Post)
  | indexError
deriving DecidableEq, Repr

/-- `SuccMain.c_fetch_until` (main.py lines 231-259): run the loop, then read
`final_posts[0].id` and write the whole accumulator as one batch via
`process_hta`. `none` means the loop never broke on the supplied pages. -/
def c_fetch_until (untilId : Int) (pages : List (List Post)) : Option UntilResult :=
  match fetchUntilLoop untilId pages with
  | none => none
  | some (acc, _) =>
    match acc with
    | [] => some UntilResult.indexError
    | _ => some (UntilResult.batch acc)

/-- `page_continue` of `SuccMain.c_fetch_all` (main.py line 264). -/
def page_continue : Nat := 3

/-- The `while True` loop of `SuccMain.c_fetch_all` (main.py lines 265-278).
`fetchW i` stands for the posts returned by `fetch_pages(i, i + page_continue)`,
i.e. one window of `page_continue + 1` pages starting at page `i`. The loop
breaks on an empty window, otherwise writes the window as one batch and
advances `i` by `page_continue + 1`. The result is the list of written
batches, each tagged with its window start; `none` means the fuel ran out
before an empty window appeared (the real loop would still be running). -/
def fetchAllLoop (fetchW : Nat → List Post) : Nat → Nat → Option (List (Nat × List Post))
  | _, 0 => none
  | i, Nat.succ fuel =>
    let data := fetchW i
    if data.isEmpty then some []
    else
      match fetchAllLoop fetchW (i + page_continue + 1) fuel with
      | none => none
      | some batches => some ((i, data) :: batches)

/-- `SuccMain.c_fetch_all` (main.py lines 261-278): the window loop starting
at page index 0. -/
def c_fetch_all (fetchW : Nat → List Post) (fuel : Nat) : Option (List (Nat × List Post)) :=
  fetchAllLoop fetchW 0 fuel

/-- Rounding of a rational to `n` decimal places, the model of Python's
`round(x, n)` on the jitter draw. -/
def roundTo (n : Nat) (x : ℚ) : ℚ := (round (x * 10 ^ n) : ℤ) / 10 ^ n

/-- The page-fetch retry delay (main.py line 118):
`round(random.uniform(0.5, 2.5), 2)` applied to the drawn value `x`. -/
def pageRetryDelay (x : ℚ) : ℚ := roundTo 2 x

/-- The tag-fetch retry delay (post.py line 92):
`round(random.uniform(0.5, 2.5), 3)` applied to the drawn value `x`. -/
def tagRetryDelay (x : ℚ) : ℚ := roundTo 3 x

/-- A duration that is a whole number of hundredths (a multiple of 0.01). -/
def hundredthsMultiple (q : ℚ) : Prop := ∃ k : ℤ, q = (k : ℚ) / 100

/-- A duration that is a whole number of thousandths (a multiple of 0.001). -/
def thousandthsMultiple (q : ℚ) : Prop := ∃ k : ℤ, q = (k : ℚ) / 1000

/-- Phase of one tag-resolution task with respect to the semaphore
(`TagFetcher.fetch`, post.py lines 59-62): not yet admitted, inside the
`async with` block (the resolution is in flight), or finished (the
semaphore slot was given back). -/
inductive TaskPhase
  | waiting
  | running
  | done
deriving DecidableEq, BEq, Repr

/-- State of the semaphore system: the phase of every resolution task plus
the free slots of `asyncio.Semaphore` (main.py line 41). -/
structure SemState where
  tasks : List TaskPhase
  avail : Nat
deriving DecidableEq, Repr

/-- Number of resolutions currently in flight (inside the `async with`). -/
def inFlight (s : SemState) : Nat :=
  s.tasks.countP (fun t => t == TaskPhase.running)

/-- Interleaving semantics of the semaphore: a waiting task may enter only
when a slot is free, taking the slot; a running task, on completion or
failure alike, leaves and returns the slot (the `async with` of
`TagFetcher.fetch` releases unconditionally). -/
inductive SemStep : SemState → SemState → Prop
  | acquire (pre post : List TaskPhase) (n : Nat) :
      SemStep ⟨pre ++ TaskPhase.waiting :: post, n + 1⟩
              ⟨pre ++ TaskPhase.running :: post, n⟩
  | release (pre post : List TaskPhase) (n : Nat) :
      SemStep ⟨pre ++ TaskPhase.running :: post, n⟩
              ⟨pre ++ TaskPhase.done :: post, n + 1⟩

/-- Initial state: `numTasks` pending resolutions against a cold cache, and
the three slots of `asyncio.Semaphore(3)` (main.py line 41) all free. -/
def initState (numTasks : Nat) : SemState :=
  ⟨List.replicate numTasks TaskPhase.waiting, 3⟩

/-- States reachable from `s0` by semaphore steps. -/
inductive ReachableFrom (s0 : SemState) : SemState → Prop
  | refl : ReachableFrom s0 s0
  | step {s s2 : SemState} : ReachableFrom s0 s → SemStep s s2 → ReachableFrom s0 s2

/-- A concrete post with the given id and placeholder attributes, used to
instantiate theorems about the crawl loops. -/
def mkP (n : Int) : Post :=
  { id := n, raw_tags := [], tags := [], timestamp := "", hash := "", url := "", author := "" }

/-! ### Cache lemmas -/

lemma lookupTag_eq_none_iff (c : Cache) (l : String) :
    lookupTag c l = none ↔ c.any (fun e => e.1 == l) = false := by
  simp [lookupTag, Option.map_eq_none', List.find?_eq_none, List.any_eq_false]

lemma lookupTag_append_self (c : Cache) (l : String) (t : Int)
    (h : lookupTag c l = none) : lookupTag (c ++ [(l, t)]) l = some t := by
  have h2 : c.find? (fun e => e.1 == l) = none := by
    simpa [lookupTag, Option.map_eq_none'] using h
  simp [lookupTag, List.find?_append, h2, List.find?]

lemma lookupTag_append_ne (c : Cache) (n : String) (t : Int) (l : String)
    (h : n ≠ l) : lookupTag (c ++ [(n, t)]) l = lookupTag c l := by
  have hbeq : (n == l) = false := by simpa using h
  simp [lookupTag, List.find?_append, List.find?, hbeq]

lemma lookupTag_insertIfAbsent_ne (c : Cache) (n : String) (t : Int) (l : String)
    (h : n ≠ l) : lookupTag (insertIfAbsent c n t).1 l = lookupTag c l := by
  by_cases hany : c.any (fun e => e.1 == n) = true
  · simp [insertIfAbsent, insertTag, hany]
  · simp only [Bool.not_eq_true] at hany
    simp [insertIfAbsent, insertTag, hany, lookupTag_append_ne c n t l h]

lemma lookupTag_learnAll_ne (results : List TagInfo) (c : Cache) (l : String)
    (hr : ∀ r ∈ results, r.name ≠ l) :
    lookupTag (learnAll c results) l = lookupTag c l := by
  induction results generalizing c with
  | nil => rfl
  | cons r rs ih =>
    rw [learnAll, List.foldl_cons]
    rw [show List.foldl (fun c r => (insertIfAbsent c r.name r.tag_type).1)
          ((insertIfAbsent c r.name r.tag_type).1) rs
        = learnAll (insertIfAbsent c r.name r.tag_type).1 rs from rfl]
    rw [ih _ (fun q hq => hr q (List.mem_cons_of_mem r hq))]
    exact lookupTag_insertIfAbsent_ne c r.name r.tag_type l (hr r (List.mem_cons_self r rs))

/-! ### Claim theorems -/

/-- C1: for a label absent from the cache whose describe-label response has
no record named exactly the label, the resolver returns GENERAL, and the
cache afterwards maps the label to GENERAL (the resolver is a total
function of the cache and the response, so it terminates). -/
theorem c1_fallback_general (cache : Cache) (tag : String) (results : List TagInfo)
    (hc : lookupTag cache tag = none)
    (hr : ∀ r ∈ results, r.name ≠ tag) :
    tagFetch cache tag results =
      Except.ok (⟨tag, TagType.GENERAL⟩, learnAll cache results ++ [(tag, TagType.GENERAL)])
    ∧ lookupTag (learnAll cache results ++ [(tag, TagType.GENERAL)]) tag
        = some TagType.GENERAL := by
  have h1 : lookupTag (learnAll cache results) tag = none := by
    rw [lookupTag_learnAll_ne results cache tag hr]; exact hc
  have hfind : results.find? (fun r => r.name == tag) = none := by
    rw [List.find?_eq_none]; intro r hrmem; simpa using hr r hrmem
  have hany : ((learnAll cache results).any (fun e => e.1 == tag)) = false :=
    (lookupTag_eq_none_iff _ _).mp h1
  refine ⟨?_, lookupTag_append_self _ _ _ h1⟩
  simp [tagFetch, hc, hfind, insertTag, hany]

/-- Witness for C1 at a concrete cold label. -/
theorem c1_witness :
    tagFetch [("b", 1)] "a" [⟨"c", 2⟩] =
      Except.ok (⟨"a", TagType.GENERAL⟩,
        learnAll [("b", 1)] [⟨"c", 2⟩] ++ [("a", TagType.GENERAL)])
    ∧ lookupTag (learnAll [("b", 1)] [⟨"c", 2⟩] ++ [("a", TagType.GENERAL)]) "a"
        = some TagType.GENERAL :=
  c1_fallback_general [("b", 1)] "a" [⟨"c", 2⟩] (by decide) (by decide)

/-- C2 counterexample: the GENERAL-fallback insert of the resolver
(post.py lines 123-124) is a bare insert with no IntegrityError handler,
so inserting an already-present label on that path faults instead of being
a silent no-op. -/
theorem c2_counterexample :
    insertTag [("a", 1)] "a" TagType.GENERAL = Except.error () := by
  simp [insertTag]

/-- C2 amended: on the opportunistic-learning path the insert is
insert-if-absent: the first insert of an absent label wins and reports true,
a second insert of the same label is a silent no-op reporting false and the
stored kind stays the first one; the GENERAL-fallback path, by contrast,
performs a bare insert that faults whenever the label is already present. -/
theorem c2_amended (c c2 : Cache) (l : String) (k1 k2 t : Int)
    (h0 : lookupTag c l = none) (hne : k1 ≠ k2) (hp : lookupTag c2 l ≠ none) :
    (insertIfAbsent c l k1).2 = true
    ∧ lookupTag (insertIfAbsent c l k1).1 l = some k1
    ∧ insertIfAbsent (insertIfAbsent c l k1).1 l k2 = ((insertIfAbsent c l k1).1, false)
    ∧ lookupTag (insertIfAbsent (insertIfAbsent c l k1).1 l k2).1 l = some k1
    ∧ insertTag c2 l t = Except.error () := by
  have hany : c.any (fun e => e.1 == l) = false := (lookupTag_eq_none_iff c l).mp h0
  have h1 : insertIfAbsent c l k1 = (c ++ [(l, k1)], true) := by
    simp [insertIfAbsent, insertTag, hany]
  have h2 : lookupTag (c ++ [(l, k1)]) l = some k1 := lookupTag_append_self c l k1 h0
  have hany1 : ((c ++ [(l, k1)]).any (fun e => e.1 == l)) = true := by
    simp [List.any_append]
  have h3 : insertIfAbsent (c ++ [(l, k1)]) l k2 = (c ++ [(l, k1)], false) := by
    simp [insertIfAbsent, insertTag, hany1]
  have hany2 : c2.any (fun e => e.1 == l) = true := by
    by_contra hfalse
    simp only [Bool.not_eq_true] at hfalse
    exact hp ((lookupTag_eq_none_iff c2 l).mpr hfalse)
  refine ⟨?_, ?_, ?_, ?_, ?_⟩
  · rw [h1]
  · rw [h1]; exact h2
  · rw [h1, h3]
  · rw [h1, h3]; exact h2
  · simp [insertTag, hany2]

/-- Witness for C2 at a concrete label and kinds. -/
theorem c2_witness :
    (insertIfAbsent [] "a" 1).2 = true
    ∧ lookupTag (insertIfAbsent [] "a" 1).1 "a" = some 1
    ∧ insertIfAbsent (insertIfAbsent [] "a" 1).1 "a" 2 = ((insertIfAbsent [] "a" 1).1, false)
    ∧ lookupTag (insertIfAbsent (insertIfAbsent [] "a" 1).1 "a" 2).1 "a" = some 1
    ∧ insertTag [("a", 5)] "a" 0 = Except.error () :=
  c2_amended [] [("a", 5)] "a" 1 2 0 (by decide) (by decide) (by decide)

/-- A post whose raw tag list repeats the tag `a`. -/
def pDup : Post :=
  { id := 1, raw_tags := ["a", "a"], tags := ["a", "a"],
    timestamp := "t", hash := "ff", url := "u", author := "me" }

/-- C3 counterexample: a post whose raw tag list repeats a tag gets one
fetcher per occurrence (main.py lines 143-146), not one per distinct label. -/
theorem c3_counterexample :
    (tagFetcherTags pDup).length ≠ pDup.raw_tags.dedup.length := by
  decide

/-- C3 amended: the fan-out issues exactly one resolve call per occurrence of
a label in the item's raw labels, with no de-duplication before fan-out; the
count coincides with the distinct-label count only when the raw labels are
already duplicate-free. -/
theorem c3_amended (p : Post) (t : String) :
    (tagFetcherTags p).count t = p.raw_tags.count t
    ∧ (p.raw_tags.Nodup → (tagFetcherTags p).length = p.raw_tags.dedup.length) := by
  refine ⟨rfl, fun h => ?_⟩
  rw [tagFetcherTags, h.dedup]

/-- A post with the two distinct raw tags `a` and `b`. -/
def pTwo : Post :=
  { id := 1, raw_tags := ["a", "b"], tags := ["a", "b"],
    timestamp := "t", hash := "ff", url := "u", author := "me" }

/-- Witness for C3 at a duplicate-free post. -/
theorem c3_witness :
    (tagFetcherTags pTwo).length = pTwo.raw_tags.dedup.length :=
  (c3_amended pTwo "a").2 (by decide)

/-! ### Until-id loop lemmas -/

lemma unwantedOf_ne_nil_iff (u : Int) (p : List Post) :
    unwantedOf u p ≠ [] ↔ ∃ post ∈ p, post.id < u := by
  rw [Ne, unwantedOf, List.filter_eq_nil_iff]
  push_neg
  simp

lemma fetchUntilLoop_eq_none_iff (u : Int) (pages : List (List Post)) :
    fetchUntilLoop u pages = none ↔ ∀ p ∈ pages, unwantedOf u p = [] := by
  induction pages with
  | nil => simp [fetchUntilLoop]
  | cons page rest ih =>
    rw [fetchUntilLoop, List.forall_mem_cons]
    by_cases h : (unwantedOf u page).isEmpty
    · have hpage : unwantedOf u page = [] := List.isEmpty_iff.mp h
      rw [if_pos h]
      rcases hrec : fetchUntilLoop u rest with _ | ⟨acc, n⟩
      · simpa [hpage] using ih.mp hrec
      · have hrest : ¬ ∀ p ∈ rest, unwantedOf u p = [] := by
          intro hh
          rw [ih.mpr hh] at hrec
          exact Option.noConfusion hrec
        simp [hrest]
    · have hpage : unwantedOf u page ≠ [] := by
        simpa [List.isEmpty_iff] using h
      rw [if_neg h]
      simp [hpage]

lemma fetchUntilLoop_boundary (u : Int) (pre rest : List (List Post)) (b : List Post)
    (h1 : ∀ p ∈ pre, unwantedOf u p = [])
    (h2 : unwantedOf u b ≠ []) :
    fetchUntilLoop u (pre ++ b :: rest) =
      some (((pre ++ [b]).map (wantedOf u)).flatten, pre.length + 1) := by
  induction pre with
  | nil =>
    rw [List.nil_append, fetchUntilLoop,
      if_neg (by simpa [List.isEmpty_iff] using h2)]
    simp
  | cons p pre ih =>
    have hp : unwantedOf u p = [] := h1 p (List.mem_cons_self p pre)
    rw [List.cons_append, fetchUntilLoop,
      if_pos (by simp [hp, List.isEmpty_iff]),
      ih (fun q hq => h1 q (List.mem_cons_of_mem p hq))]
    simp

/-- C4 counterexample: with target 95, page 0 empty and page 1 nonempty, the
until-id loop runs past the empty page 0 and consumes page 1 (two pages
consumed), so an empty page is not a terminal state of this loop. -/
theorem c4_counterexample :
    fetchUntilLoop 95 [[], [mkP 90]] = some ([], 2) := by
  decide

/-- C4 amended: the until-id loop terminates exactly when some supplied page
contains an item with id below the target; a page with no items contains no
such item, so an empty page never terminates the loop — the loop keeps
requesting later pages. -/
theorem c4_amended (u : Int) (pages : List (List Post)) :
    (fetchUntilLoop u pages).isSome = true ↔
      ∃ p ∈ pages, ∃ post ∈ p, post.id < u := by
  rw [Option.isSome_iff_ne_none, Ne, fetchUntilLoop_eq_none_iff]
  push_neg
  simp only [unwantedOf_ne_nil_iff]

/-- C5 counterexample: with target 500 above every catalog id, the boundary
page is page 0, zero items are accumulated, and the operation ends in the
IndexError of reading the first accumulated item (main.py line 258) — no
batch is written. -/
theorem c5_counterexample :
    c_fetch_until 500 [[mkP 90]] = some UntilResult.indexError := by
  decide

/-- C5 amended: when pages before the boundary have all ids at or above the
target, the boundary page contains an id below the target, and at least one
item is accumulated, the until-id crawl consumes exactly the pages up to and
including the boundary (later pages untouched), accumulates exactly the
items with id at or above the target from the consumed pages, and writes
them as one batch. -/
theorem c5_until_id (u : Int) (pre rest : List (List Post)) (b : List Post)
    (h1 : ∀ p ∈ pre, ∀ post ∈ p, u ≤ post.id)
    (h2 : ∃ post ∈ b, post.id < u)
    (h3 : ((pre ++ [b]).map (wantedOf u)).flatten ≠ []) :
    fetchUntilLoop u (pre ++ b :: rest) =
      some (((pre ++ [b]).map (wantedOf u)).flatten, pre.length + 1)
    ∧ c_fetch_until u (pre ++ b :: rest) =
        some (UntilResult.batch (((pre ++ [b]).map (wantedOf u)).flatten)) := by
  have h1a : ∀ p ∈ pre, unwantedOf u p = [] := by
    intro p hp
    rw [unwantedOf, List.filter_eq_nil_iff]
    intro post hpost
    simpa using not_lt.mpr (h1 p hp post hpost)
  have h2a : unwantedOf u b ≠ [] := (unwantedOf_ne_nil_iff u b).mpr h2
  have hL := fetchUntilLoop_boundary u pre rest b h1a h2a
  refine ⟨hL, ?_⟩
  rw [c_fetch_until, hL]
  rcases hj : ((pre ++ [b]).map (wantedOf u)).flatten with _ | ⟨x, xs⟩
  · exact absurd hj h3
  · rfl

/-- The descending ids 100 down to 91, page 0 of the worked example. -/
def pageA : List Post :=
  [mkP 100, mkP 99, mkP 98, mkP 97, mkP 96, mkP 95, mkP 94, mkP 93, mkP 92, mkP 91]

/-- The descending ids 90 down to 81, page 1 of the worked example. -/
def pageB : List Post :=
  [mkP 90, mkP 89, mkP 88, mkP 87, mkP 86, mkP 85, mkP 84, mkP 83, mkP 82, mkP 81]

/-- Witness for C5 on the worked example: target 95 over pages
[100..91] and [90..81] writes the batch of ids 100 down to 95 after
consuming only page 0. -/
theorem c5_witness :
    c_fetch_until 95 [pageA, pageB] =
      some (UntilResult.batch ((([] ++ [pageA]).map (wantedOf 95)).flatten)) :=
  (c5_until_id 95 [] [pageB] pageA (by decide) (by decide) (by decide)).2

/-! ### Full-crawl loop -/

lemma fetchAllLoop_spec (f : Nat → List Post) (k : Nat) :
    ∀ (i fuel : Nat), (∀ j < k, f (i + (page_continue + 1) * j) ≠ []) →
      f (i + (page_continue + 1) * k) = [] → k < fuel →
      fetchAllLoop f i fuel =
        some ((List.range k).map
          (fun j => (i + (page_continue + 1) * j, f (i + (page_continue + 1) * j)))) := by
  induction k with
  | zero =>
    intro i fuel h1 h2 hf
    obtain ⟨m, rfl⟩ : ∃ m, fuel = m + 1 := ⟨fuel - 1, by omega⟩
    have hempty : f i = [] := by simpa using h2
    simp only [fetchAllLoop]
    rw [if_pos (by simp [hempty])]
    simp
  | succ k ih =>
    intro i fuel h1 h2 hf
    obtain ⟨m, rfl⟩ : ∃ m, fuel = m + 1 := ⟨fuel - 1, by omega⟩
    have h0 : f i ≠ [] := by simpa using h1 0 (Nat.succ_pos k)
    simp only [fetchAllLoop]
    rw [if_neg (by simpa [List.isEmpty_iff] using h0)]
    have ih2 := ih (i + page_continue + 1) m
      (fun j hj => by
        have := h1 (j + 1) (by omega)
        simpa [show i + (page_continue + 1) * (j + 1)
            = i + page_continue + 1 + (page_continue + 1) * j by ring] using this)
      (by
        have : i + (page_continue + 1) * (k + 1)
            = i + page_continue + 1 + (page_continue + 1) * k := by ring
        rw [this] at h2
        exact h2)
      (by omega)
    rw [ih2]
    rw [List.range_succ_eq_map, List.map_cons, List.map_map]
    refine congrArg some (List.cons_eq_cons.mpr ⟨by simp, ?_⟩)
    refine List.map_congr_left (fun j hj => ?_)
    have harith : i + page_continue + 1 + (page_continue + 1) * j
        = i + (page_continue + 1) * (j + 1) := by ring
    simp only [Function.comp_apply, Nat.succ_eq_add_one, harith]

/-- C6: the full-crawl loop starts its windows at page 0, advances the
window start by the window size (`page_continue + 1` pages) each iteration,
writes one batch per fetched nonempty window, and terminates at the first
empty window without writing a batch for it. `f i` stands for the posts of
the window of pages `i` to `i + page_continue`, and `k` indexes the first
empty window. -/
theorem c6_full_crawl (f : Nat → List Post) (k fuel : Nat)
    (h1 : ∀ j < k, f ((page_continue + 1) * j) ≠ [])
    (h2 : f ((page_continue + 1) * k) = [])
    (hf : k < fuel) :
    c_fetch_all f fuel =
      some ((List.range k).map
        (fun j => ((page_continue + 1) * j, f ((page_continue + 1) * j)))) := by
  have h := fetchAllLoop_spec f k 0 fuel (by simpa using h1) (by simpa using h2) hf
  simpa [c_fetch_all] using h

/-- The window results of a three-window crawl: two nonempty windows at page
starts 0 and 4, then empty windows from page start 8 on. -/
def exWindows (i : Nat) : List Post := if i < 8 then [mkP 1] else []

/-- Witness for C6: the example crawl writes the two nonempty windows, in
window order, and stops at the third. -/
theorem c6_witness :
    c_fetch_all exWindows 3 =
      some ((List.range 2).map
        (fun j => ((page_continue + 1) * j, exWindows ((page_continue + 1) * j)))) :=
  c6_full_crawl exWindows 2 3 (by decide) (by decide) (by decide)

/-! ### Retry delays -/

/-- C7 counterexample: a draw of 0.505 from the uniform interval, fed to the
tag-fetch retry (post.py line 92, `round(..., 3)`), sleeps exactly 0.505,
which is not a whole number of hundredths. -/
theorem c7_counterexample :
    ((1 : ℚ) / 2 ≤ 101 / 200 ∧ (101 : ℚ) / 200 ≤ 5 / 2)
    ∧ tagRetryDelay (101 / 200) = 101 / 200
    ∧ ¬ hundredthsMultiple (tagRetryDelay (101 / 200)) := by
  refine ⟨by norm_num, by norm_num [tagRetryDelay, roundTo], ?_⟩
  rintro ⟨k, hk⟩
  rw [show tagRetryDelay (101 / 200) = 101 / 200 by norm_num [tagRetryDelay, roundTo]] at hk
  have h2 : (101 : ℚ) * 100 = (k : ℚ) * 200 := by field_simp at hk; linarith
  have h3 : (10100 : ℤ) = k * 200 := by exact_mod_cast h2
  omega

/-- C7 amended: both retry paths draw from the uniform 0.5 to 2.5 interval,
but the page-fetch delay (main.py line 118) is rounded to hundredths and is
always a multiple of 0.01, while the tag-fetch delay (post.py line 92) is
rounded to thousandths and is only guaranteed to be a multiple of 0.001. -/
theorem c7_retry_resolution (x : ℚ) :
    hundredthsMultiple (pageRetryDelay x) ∧ thousandthsMultiple (tagRetryDelay x) :=
  ⟨⟨round (x * 10 ^ 2), by norm_num [pageRetryDelay, roundTo]⟩,
   ⟨round (x * 10 ^ 3), by norm_num [tagRetryDelay, roundTo]⟩⟩

/-! ### Synthesized labels -/

/-- C8: constructing a post from a raw response entry and applying the
unconditional tag additions of fetch_page appends exactly four synthesized
labels — the constant domain tag, the constant source tag, the md5-namespaced
content hash, and the id-namespaced id — independent of any remote
classification, leaving the raw labels and the id unchanged. -/
theorem c8_synthesized_labels (d : RawPost) :
    (synthTags (Post.ofRaw d)).tags =
      (Post.ofRaw d).raw_tags ++
        ["hypnosis", "booru:hypnohub", "md5:" ++ (Post.ofRaw d).hash,
          "id:" ++ toString (Post.ofRaw d).id]
    ∧ (synthTags (Post.ofRaw d)).raw_tags = (Post.ofRaw d).raw_tags
    ∧ (synthTags (Post.ofRaw d)).id = (Post.ofRaw d).id := by
  refine ⟨?_, rfl, rfl⟩
  simp [synthTags, Post.tag_add, Post.ofRaw]

/-! ### Semaphore bound -/

lemma semStep_inv {s s2 : SemState} (h : SemStep s s2) :
    inFlight s2 + s2.avail = inFlight s + s.avail := by
  have hw : (TaskPhase.waiting == TaskPhase.running) = false := by decide
  have hr2 : (TaskPhase.running == TaskPhase.running) = true := by decide
  have hd : (TaskPhase.done == TaskPhase.running) = false := by decide
  cases h with
  | acquire pre post n =>
    simp only [inFlight, List.countP_append, List.countP_cons, hw, hr2]
    simp
    omega
  | release pre post n =>
    simp only [inFlight, List.countP_append, List.countP_cons, hd, hr2]
    simp
    omega

/-- C9: every state reachable from ten pending resolutions and the three free
slots of the semaphore has at most three resolutions in flight; a task may
enter only by taking a free slot (also on the cache-hit path, since the
`async with` of fetch surrounds the whole of the resolver) and gives the slot
back unconditionally on completion or failure. -/
theorem c9_bounded_inflight (s : SemState)
    (h : ReachableFrom (initState 10) s) : inFlight s ≤ 3 := by
  suffices hinv : inFlight s + s.avail = 3 by omega
  induction h with
  | refl => decide
  | step hr hstep ih => exact (semStep_inv hstep).trans ih

/-- Witness for C9 at the initial state. -/
theorem c9_witness : inFlight (initState 10) ≤ 3 :=
  c9_bounded_inflight (initState 10) ReachableFrom.refl

/-! ### Empty until-id accumulation -/

/-- C10: when the until-id loop breaks with an empty accumulator, the
operation ends in the IndexError of `final_posts[0].id` (main.py line 258)
and never writes a batch; a batch is written only from a nonempty
accumulator. -/
theorem c10_empty_batch_faults (u : Int) (pages : List (List Post)) (n : Nat)
    (h : fetchUntilLoop u pages = some ([], n)) :
    c_fetch_until u pages = some UntilResult.indexError
    ∧ ∀ b, c_fetch_until u pages ≠ some (UntilResult.batch b) := by
  rw [c_fetch_until, h]
  exact ⟨rfl, fun b hb => by simp at hb⟩

/-- Witness for C10: a target above every catalog id accumulates nothing and
faults. -/
theorem c10_witness :
    c_fetch_until 1000 [[mkP 100]] = some UntilResult.indexError :=
  (c10_empty_batch_faults 1000 [[mkP 100]] 1 (by decide)).1

end Succ
